import Mathlib

/-!
Verification of the ctile tile-caching proxy (main.go).

This file shallowly embeds the pure core of ctile: 64-bit machine
arithmetic is `Int` with an explicit two's-complement wrap (`wrap64`)
applied at every Go arithmetic operation whose result can leave the
int64 range; the S3 and upstream-HTTP transports are abstracted as
outcome parameters fed to the functions that consume them, so that the
control flow of each Go function is reproduced verbatim; fallible Go
calls become `Except` values.
-/

namespace Ctile

/-- Two's-complement reduction of an unbounded integer into the int64
range, matching Go's wrapping semantics for `int64` arithmetic. -/
def wrap64 (n : Int) : Int :=
  (n + 2 ^ 63) % 2 ^ 64 - 2 ^ 63

/-- The value `n` is representable as a Go `int64`. -/
def isInt64 (n : Int) : Prop :=
  -(2 ^ 63) ≤ n ∧ n < 2 ^ 63

/-- entry (main.go): a single CT log entry, two opaque byte strings
`leaf_input` and `extra_data` (bytes modeled as `List Nat`). -/
structure entry where
  leaf_input : List Nat
  extra_data : List Nat
deriving DecidableEq, Repr

/-- tile (main.go): a half-open interval [start, end) of log indices
plus its size and the backing log URL. The Go field `end` is a Lean
keyword, so it is rendered `end'`. -/
structure tile where
  start : Int
  end' : Int
  size : Int
  logURL : String
deriving DecidableEq, Repr

/-- makeTile (main.go:75-84): rounds `start` down to the tile boundary.
Go's `%` on int64 is truncated (`Int.tmod`); the subtraction and the
addition are int64 operations and therefore wrap. -/
def makeTile (start size : Int) (logURL : String) : tile :=
  let tileOffset := Int.tmod start size
  let tileStart := wrap64 (start - tileOffset)
  { start := tileStart
    end' := wrap64 (tileStart + size)
    size := size
    logURL := logURL }

/-- The `end` query parameter that tile.url places on the wire:
`t.end - 1` computed in int64 arithmetic (main.go:95). -/
def wireEndParam (t : tile) : Int :=
  wrap64 (t.end' - 1)

/-- tile.url (main.go:92-96): the upstream get-entries URL; the CT wire
protocol uses closed intervals, so the internal half-open `end` is
decremented at this boundary. -/
def tile.url (t : tile) : String :=
  t.logURL ++ "/ct/v1/get-entries?start=" ++ toString t.start ++ "&end=" ++
    toString (wireEndParam t)

/-- Go error values reachable in main.go, as a wrap-chain: `wrapped`
models `fmt.Errorf("...: %w", inner)`. Formatted arguments of purely
diagnostic messages (the `internal inconsistency` family) are elided;
no verified property inspects them. -/
inductive GoError where
  | noSuchKey : GoError
  | pastTheEnd : GoError
  | statusCode (code : Int) (body : String) : GoError
  | generic (msg : String) : GoError
  | wrapped (prefixMsg : String) (inner : GoError) : GoError
deriving DecidableEq, Repr

/-- Error() strings of the error values above (statusCodeError.Error,
pastTheEndError.Error, noSuchKey.Error in main.go). -/
def GoError.message : GoError → String
  | .noSuchKey => "no such key"
  | .pastTheEnd => "requested range is past the end of the log"
  | .statusCode code body =>
      "backend responded with status code " ++ toString code ++ " and body:\n" ++ body
  | .generic msg => msg
  | .wrapped p inner => p ++ inner.message

/-- errors.Is(err, noSuchKey\x7b\x7d): walks the Unwrap chain looking for
the sentinel `noSuchKey` value (main.go:498). -/
def errorsIsNoSuchKey : GoError → Bool
  | .noSuchKey => true
  | .wrapped _ inner => errorsIsNoSuchKey inner
  | _ => false

/-- errors.As(err, &statusCodeErr): first statusCodeError in the Unwrap
chain, if any (main.go:408). -/
def errorsAsStatusCode : GoError → Option (Int × String)
  | .statusCode code body => some (code, body)
  | .wrapped _ inner => errorsAsStatusCode inner
  | _ => none

/-- errors.As(err, &pastTheEndError\x7b\x7d) (main.go:428). -/
def errorsIsPastTheEnd : GoError → Bool
  | .pastTheEnd => true
  | .wrapped _ inner => errorsIsPastTheEnd inner
  | _ => false

/-- strconv.ParseInt(s, 10, 64): optional sign, one or more decimal
digits, value within the int64 range; anything else is an error
(modeled as `none`). -/
def goParseInt64 (s : String) : Option Int :=
  match s.toList with
  | [] => none
  | c :: rest =>
    let (neg, digits) :=
      if c = '-' then (true, rest)
      else if c = '+' then (false, rest)
      else (false, c :: rest)
    if digits = [] ∨ ¬ digits.all Char.isDigit then none
    else
      let mag : Int := digits.foldl (fun acc d => acc * 10 + (d.toNat - 48)) 0
      let v : Int := if neg then -mag else mag
      if -(2 ^ 63) ≤ v ∧ v < 2 ^ 63 then some v else none

/-- parseQueryParams (main.go:37-58). Takes the `start` and `end` query
strings (Go's url.Values.Get yields "" for an absent parameter) and
returns the half-open pair (start, end+1); the increment is an int64
operation and wraps. Error messages follow the source. -/
def parseQueryParams (startS endS : String) : Except String (Int × Int) :=
  if startS = "" then .error "missing start parameter"
  else if endS = "" then .error "missing end parameter"
  else
    match goParseInt64 startS with
    | none => .error "invalid start parameter"
    | some startInt =>
      if startInt < 0 then .error "invalid start parameter"
      else
        match goParseInt64 endS with
        | none => .error "invalid end parameter"
        | some endInt =>
          if endInt < 0 then .error "invalid end parameter"
          else if endInt < startInt then .error "end must be greater than or equal to start"
          else .ok (startInt, wrap64 (endInt + 1))

/-- trimForDisplay (main.go:120-146). The receiver `entries` wrapper
struct holds only the list, so the list is passed directly. All
arithmetic is int64 (wrapped); Go slice indexing `e.Entries[a : a+b]`
is `(drop a).take b`. -/
def trimForDisplay (e : List entry) (start end' : Int) (t : tile) :
    Except GoError (List entry) :=
  if start < t.start ∨ start ≥ t.end' ∨ end' ≤ start ∨ (e.length : Int) > t.size then
    .error (.generic "internal inconsistency")
  else
    let prefixToRemove := wrap64 (start - t.start)
    if prefixToRemove ≥ (e.length : Int) then
      .error .pastTheEnd
    else
      let requestedLen := wrap64 (end' - start)
      let requestedLen :=
        if wrap64 (prefixToRemove + requestedLen) > (e.length : Int) then
          wrap64 ((e.length : Int) - prefixToRemove)
        else requestedLen
      .ok ((e.drop prefixToRemove.toNat).take requestedLen.toNat)

/-- Outcome of the S3 GetObject call plus the gzip/CBOR decode of its
body, abstracting the transport in getFromS3 (main.go:247-276):
`notFound` is the SDK's types.NoSuchKey, `ioError` any other GetObject
failure, `badPayload` a gzip or CBOR decode failure, and `payload` a
successfully decoded entry list. -/
inductive S3GetOutcome where
  | notFound : S3GetOutcome
  | ioError (msg : String) : S3GetOutcome
  | badPayload (msg : String) : S3GetOutcome
  | payload (es : List entry) : S3GetOutcome
deriving DecidableEq, Repr

/-- Outcome of the S3 PutObject call in writeToS3 (main.go:227-231). -/
inductive S3PutOutcome where
  | ok : S3PutOutcome
  | ioError (msg : String) : S3PutOutcome
deriving DecidableEq, Repr

/-- Outcome of the upstream HTTP GET in getTileFromBackend
(main.go:176-206): either the transport failed (`reqError`), or a
response arrived with its status code, raw body, and the result of
JSON-decoding the body into an entry list (only consulted on 200). -/
inductive BackendOutcome where
  | reqError (msg : String) : BackendOutcome
  | httpResp (code : Int) (body : String) (decoded : Except String (List entry)) : BackendOutcome
deriving Repr

/-- getFromS3 (main.go:247-276): classify the SDK error (NoSuchKey
becomes the sentinel `noSuchKey`, everything else is wrapped), then
validate that the decoded tile is full and internally consistent.
`t.start + t.size` is an int64 addition and wraps. -/
def getFromS3 (t : tile) (o : S3GetOutcome) : Except GoError (List entry) :=
  match o with
  | .notFound => .error .noSuchKey
  | .ioError msg => .error (.wrapped "getting from bucket: " (.generic msg))
  | .badPayload msg => .error (.generic msg)
  | .payload es =>
    if (es.length : Int) ≠ t.size ∨ t.end' ≠ wrap64 (t.start + t.size) then
      .error (.generic "internal inconsistency")
    else .ok es

/-- getTileFromBackend (main.go:176-206): a non-200 response becomes a
statusCodeError carrying the captured body; a 200 response is decoded
and must contain between 1 and t.size entries. -/
def getTileFromBackend (t : tile) (o : BackendOutcome) : Except GoError (List entry) :=
  match o with
  | .reqError msg => .error (.wrapped "fetching: " (.generic msg))
  | .httpResp code body decoded =>
    if code ≠ 200 then .error (.statusCode code body)
    else
      match decoded with
      | .error msg => .error (.wrapped "reading body: " (.generic msg))
      | .ok es =>
        if (es.length : Int) > t.size ∨ es.length = 0 then
          .error (.generic "unexpected entry count")
        else .ok es

/-- writeToS3 (main.go:209-236). `encodeResult` is the outcome of
`cbor.NewEncoder(w).Encode(e)` and `closeResult` of `w.Close()`; both
write into an in-memory gzip buffer (the encoded bytes themselves are
never observed, so they are elided). Returns the Go error result
together with whether the PutObject call was reached. Note the
encoding-error branch returns nil (main.go:217-219). -/
def writeToS3 (t : tile) (e : List entry) (encodeResult : Except String Unit)
    (closeResult : Except String Unit) (putO : S3PutOutcome) :
    Except GoError Unit × Bool :=
  if (e.length : Int) ≠ t.size ∨ t.end' ≠ wrap64 (t.start + t.size) then
    (.error (.generic "internal inconsistency"), false)
  else
    match encodeResult with
    | .error _ => (.ok (), false)
    | .ok _ =>
      match closeResult with
      | .error msg => (.error (.generic ("closing gzip writer: " ++ msg)), false)
      | .ok _ =>
        match putO with
        | .ioError msg => (.error (.generic ("putting in bucket: " ++ msg)), true)
        | .ok => (.ok (), true)

/-- tileSource (main.go:454-459). -/
inductive tileSource where
  | s3 : tileSource
  | ctLog : tileSource
deriving DecidableEq, Repr

/-- tileSource string values (main.go:457-458). -/
def tileSource.text : tileSource → String
  | .s3 => "S3"
  | .ctLog => "CT log"

/-- Result of one resolver run: the Go (entries, source, error) triple
collapsed into an Except, plus whether the upstream CT log was
contacted and whether an S3 PutObject call was made. -/
structure ResolveResult where
  result : Except GoError (List entry × tileSource)
  backendContacted : Bool
  putAttempted : Bool
deriving Repr

/-- isPartialTile (main.go:541-543): compares against the configured
handler tile size. -/
def isPartialTile (tileSize : Int) (contents : List entry) : Bool :=
  (contents.length : Int) < tileSize

/-- getAndCacheTileUncollapsed (main.go:489-537): read-through
resolution. S3 hit returns (entries, S3); only the `noSuchKey`
sentinel (checked with errors.Is) falls through to the upstream; a
partial upstream tile is returned uncached; a full tile is written to
S3 before returning. The in-memory CBOR/gzip encode in writeToS3
cannot fail and is instantiated as success. -/
def getAndCacheTileUncollapsed (tileSize : Int) (t : tile) (s3o : S3GetOutcome)
    (bo : BackendOutcome) (putO : S3PutOutcome) : ResolveResult :=
  match getFromS3 t s3o with
  | .ok contents => ⟨.ok (contents, .s3), false, false⟩
  | .error err =>
    if errorsIsNoSuchKey err = false then
      ⟨.error (.wrapped "error reading tile from s3: " err), false, false⟩
    else
      match getTileFromBackend t bo with
      | .error err2 => ⟨.error (.wrapped "error reading tile from backend: " err2), true, false⟩
      | .ok contents =>
        if isPartialTile tileSize contents then
          ⟨.ok (contents, .ctLog), true, false⟩
        else
          let w := writeToS3 t contents (.ok ()) (.ok ()) putO
          match w.1 with
          | .error werr => ⟨.error (.wrapped "error writing tile to S3: " werr), true, w.2⟩
          | .ok _ => ⟨.ok (contents, .ctLog), true, w.2⟩

/-- An HTTP reply as the handler produces it: the status passed to
WriteHeader and the message printed into the body (fmt.Fprintln
appends a trailing newline to every such message; the newline is wire
framing and not modeled). -/
structure Response where
  status : Int
  body : String
deriving DecidableEq, Repr

/-- ServeHTTP error branch for a failed tile resolution
(main.go:405-418): status is the wrapped statusCodeError's code if one
is present, else 500, and the body is the error's message. -/
def respondToTileError (err : GoError) : Response :=
  let status : Int :=
    match errorsAsStatusCode err with
    | some (code, _) => code
    | none => 500
  ⟨status, err.message⟩

/-- Reply of the trimming step of ServeHTTP. -/
inductive TrimReply where
  | errorReply (status : Int) (body : String) : TrimReply
  | okReply (es : List entry) : TrimReply
deriving DecidableEq, Repr

/-- ServeHTTP trimming step (main.go:426-449): any trimForDisplay error
is answered with HTTP 400 and the error message; on success the
trimmed list is JSON-encoded with status 200. -/
def handleTrim (e : List entry) (start end' : Int) (t : tile) : TrimReply :=
  match trimForDisplay e start end' t with
  | .error err => .errorReply 400 err.message
  | .ok res => .okReply res

/-- ServeHTTP query-validation step (main.go:392-397): a parse error is
answered immediately with HTTP 400 and the parse error message;
otherwise handling continues with the parsed pair. -/
def serveValidation (startS endS : String) : Except Response (Int × Int) :=
  match parseQueryParams startS endS with
  | .error msg => .error ⟨400, msg⟩
  | .ok p => .ok p

/-- An inbound HTTP request as passthroughHandler sees it: Go keeps
URL.Path and URL.RawQuery in separate fields. -/
structure HttpRequest where
  method : String
  path : String
  rawQuery : String
deriving DecidableEq, Repr

/-- What passthroughHandler.ServeHTTP does with a request. -/
inductive PassthroughAction where
  | reply (status : Int) (body : String) : PassthroughAction
  | forward (url : String) : PassthroughAction
deriving DecidableEq, Repr

/-- passthroughHandler.ServeHTTP (main.go:560-586): non-GET methods get
405; GET requests are forwarded to logURL ++ URL.Path (the query
string is not used). -/
def passthroughServe (logURL : String) (r : HttpRequest) : PassthroughAction :=
  if r.method ≠ "GET" then .reply 405 "only GET is supported"
  else .forward (logURL ++ r.path)

theorem wrap64_eq_self {n : Int} (h1 : -(2 ^ 63) ≤ n) (h2 : n < 2 ^ 63) :
    wrap64 n = n := by
  unfold wrap64
  rw [Int.emod_eq_of_lt (by omega) (by omega)]
  omega

theorem wrap64_add_left (a b : Int) : wrap64 (wrap64 a + b) = wrap64 (a + b) := by
  unfold wrap64
  have h1 : (a + 2 ^ 63) % 2 ^ 64 - 2 ^ 63 + b + 2 ^ 63 = (a + 2 ^ 63) % 2 ^ 64 + b := by
    ring
  have h2 : a + 2 ^ 63 + b = a + b + 2 ^ 63 := by
    ring
  rw [h1, Int.emod_add_emod, h2]

theorem wrap64_bounds (n : Int) : -(2 ^ 63) ≤ wrap64 n ∧ wrap64 n < 2 ^ 63 := by
  unfold wrap64
  have h1 : 0 ≤ (n + 2 ^ 63) % 2 ^ 64 := Int.emod_nonneg _ (by norm_num)
  have h2 : (n + 2 ^ 63) % 2 ^ 64 < 2 ^ 64 := Int.emod_lt_of_pos _ (by norm_num)
  omega

theorem emod_sub_bounds {a b : Int} (h0 : 0 ≤ a) (hpos : 0 < b) :
    0 ≤ a % b ∧ a % b < b ∧ 0 ≤ a - a % b := by
  have h1 : 0 ≤ a % b := Int.emod_nonneg a (by omega)
  have h2 : a % b < b := Int.emod_lt_of_pos a hpos
  have h3 : b * (a / b) + a % b = a := Int.ediv_add_emod a b
  have h4 : 0 ≤ a / b := Int.ediv_nonneg h0 (le_of_lt hpos)
  have h5 : 0 ≤ b * (a / b) := mul_nonneg (le_of_lt hpos) h4
  exact ⟨h1, h2, by omega⟩

theorem makeTile_start_eq (start size : Int) (u : String)
    (h0 : 0 ≤ start) (hpos : 0 < size) (h63 : start < 2 ^ 63) :
    (makeTile start size u).start = start - start % size := by
  have hb := emod_sub_bounds h0 hpos
  have ht : Int.tmod start size = start % size :=
    Int.tmod_eq_emod h0 (le_of_lt hpos)
  unfold makeTile
  simp only [ht]
  exact wrap64_eq_self (by omega) (by omega)

theorem makeTile_end_eq (start size : Int) (u : String)
    (h0 : 0 ≤ start) (hpos : 0 < size) (h63 : start < 2 ^ 63)
    (hnw : start - start % size + size < 2 ^ 63) :
    (makeTile start size u).end' = start - start % size + size := by
  have hb := emod_sub_bounds h0 hpos
  have hs := makeTile_start_eq start size u h0 hpos h63
  unfold makeTile at hs ⊢
  simp only at hs ⊢
  rw [hs]
  exact wrap64_eq_self (by omega) (by omega)

/-- C7 counterexample: the claim states tile.end = tile.start + size for
every start ≥ 0 and size > 0, but the addition in makeTile is int64
arithmetic. At start = 2^63 − 2 (a valid int64) and size = 2 the tile
is already aligned, and tileStart + size = 2^63 wraps to −2^63, so the
stored end field does not equal tile.start + size. -/
theorem makeTile_end_wrap_counterexample :
    (makeTile 9223372036854775806 2 "x").start = 9223372036854775806 ∧
    (makeTile 9223372036854775806 2 "x").end' = -9223372036854775808 ∧
    (-9223372036854775808 : Int) ≠ 9223372036854775806 + 2 := by
  refine ⟨by decide, by decide, by decide⟩

/-- C7 (amended): for every start ≥ 0 and size > 0 within the int64
range, makeTile(start, size, logURL) returns a tile with
tile.start = start − (start mod size) and tile.end = wrap64(tile.start
+ size), which equals tile.start + size whenever that sum stays below
2^63; consequently tile.start mod size = 0 and
tile.start ≤ start < tile.start + size. -/
theorem makeTile_geometry (start size : Int) (u : String)
    (h0 : 0 ≤ start) (hpos : 0 < size) (h63 : start < 2 ^ 63) (hs63 : size < 2 ^ 63) :
    (makeTile start size u).start = start - start % size ∧
    (makeTile start size u).end' = wrap64 ((makeTile start size u).start + size) ∧
    ((makeTile start size u).start + size < 2 ^ 63 →
      (makeTile start size u).end' = (makeTile start size u).start + size) ∧
    (makeTile start size u).start % size = 0 ∧
    (makeTile start size u).start ≤ start ∧
    start < (makeTile start size u).start + size ∧
    (makeTile start size u).size = size ∧
    (makeTile start size u).logURL = u := by
  have hb := emod_sub_bounds h0 hpos
  have hs := makeTile_start_eq start size u h0 hpos h63
  refine ⟨hs, ?_, ?_, ?_, by omega, by omega, rfl, rfl⟩
  · rw [hs]
    unfold makeTile
    simp only
    congr 1
    rw [Int.tmod_eq_emod h0 (le_of_lt hpos), wrap64_eq_self (by omega) (by omega)]
  · intro hlt
    rw [hs] at hlt ⊢
    exact makeTile_end_eq start size u h0 hpos h63 hlt
  · rw [hs, Int.sub_emod, Int.emod_emod_of_dvd _ dvd_rfl, sub_self, Int.zero_emod]

/-- C7 witness: the amended geometry theorem applied at start = 1001,
size = 256, where the tile is [768, 1024). -/
theorem makeTile_geometry_witness :
    (makeTile 1001 256 "u").start = 1001 - 1001 % 256 ∧
    (makeTile 1001 256 "u").start ≤ 1001 ∧
    1001 < (makeTile 1001 256 "u").start + 256 := by
  have h := makeTile_geometry 1001 256 "u" (by norm_num) (by norm_num) (by norm_num) (by norm_num)
  exact ⟨h.1, h.2.2.2.2.1, h.2.2.2.2.2.1⟩

/-- C6 counterexample: the claim states the wire end parameter equals
tile.start + size − 1 for every tile, but both the end field and the
decrement are int64 operations. For the aligned tile at
start = 2^63 − 2 with size = 3, tileStart + size wraps, and the wire
end parameter is −2^63 instead of the mathematical 2^63. -/
theorem wireEnd_counterexample :
    (makeTile 9223372036854775806 3 "x").start = 9223372036854775806 ∧
    wireEndParam (makeTile 9223372036854775806 3 "x") = -9223372036854775808 ∧
    (9223372036854775806 : Int) + 3 - 1 = 9223372036854775808 ∧
    (-9223372036854775808 : Int) ≠ 9223372036854775808 := by
  refine ⟨by decide, by decide, by decide, by decide⟩

/-- C6 (amended): the closed/half-open translation happens at the two
boundaries — parseQueryParams returns internal end = wrap64(client end
+ 1), and tile.url places wrap64(tile.end − 1) on the wire, so for
every tile built by makeTile the wire end parameter is
wrap64(tile.start + size − 1), which equals tile.start + size − 1
whenever that value stays below 2^63. -/
theorem boundary_translation :
    (∀ startS endS startInt endInt,
      parseQueryParams startS endS = .ok (startInt, endInt) →
      ∃ clientEnd, goParseInt64 endS = some clientEnd ∧ endInt = wrap64 (clientEnd + 1)) ∧
    (∀ start size : Int, ∀ u : String, 0 ≤ start → 0 < size → start < 2 ^ 63 → size < 2 ^ 63 →
      (makeTile start size u).url =
        u ++ "/ct/v1/get-entries?start=" ++ toString (makeTile start size u).start ++
          "&end=" ++ toString (wireEndParam (makeTile start size u)) ∧
      wireEndParam (makeTile start size u) = wrap64 ((makeTile start size u).start + size - 1) ∧
      ((makeTile start size u).start + size - 1 < 2 ^ 63 →
        wireEndParam (makeTile start size u) = (makeTile start size u).start + size - 1)) := by
  constructor
  · intro sS eS st en h
    unfold parseQueryParams at h
    by_cases h1 : sS = ""
    · rw [if_pos h1] at h
      exact Except.noConfusion h
    rw [if_neg h1] at h
    by_cases h2 : eS = ""
    · rw [if_pos h2] at h
      exact Except.noConfusion h
    rw [if_neg h2] at h
    cases hps : goParseInt64 sS with
    | none =>
      rw [hps] at h
      exact Except.noConfusion h
    | some si =>
      rw [hps] at h
      dsimp only at h
      by_cases h3 : si < 0
      · rw [if_pos h3] at h
        exact Except.noConfusion h
      rw [if_neg h3] at h
      cases hpe : goParseInt64 eS with
      | none =>
        rw [hpe] at h
        exact Except.noConfusion h
      | some ei =>
        rw [hpe] at h
        dsimp only at h
        by_cases h4 : ei < 0
        · rw [if_pos h4] at h
          exact Except.noConfusion h
        rw [if_neg h4] at h
        by_cases h5 : ei < si
        · rw [if_pos h5] at h
          exact Except.noConfusion h
        rw [if_neg h5] at h
        injection h with h6
        obtain ⟨h7, h8⟩ := Prod.mk.injEq .. |>.mp h6
        exact ⟨ei, rfl, h8.symm⟩
  · intro start size u _ hpos h63 _
    have hlow : -(2 ^ 63) ≤ (makeTile start size u).start := by
      unfold makeTile
      simp only
      exact (wrap64_bounds _).1
    have he : (makeTile start size u).end' = wrap64 ((makeTile start size u).start + size) :=
      rfl
    have hw : wireEndParam (makeTile start size u) =
        wrap64 ((makeTile start size u).start + size - 1) := by
      unfold wireEndParam
      rw [he, sub_eq_add_neg, wrap64_add_left, ← sub_eq_add_neg]
    refine ⟨rfl, hw, fun hlt => ?_⟩
    rw [hw, wrap64_eq_self (by omega) hlt]

/-- C6 witness: the translation theorem applied at endS = "7" (internal
end 8) and at the tile [768, 1024) of size 256, whose wire end is
1023. -/
theorem boundary_translation_witness :
    (∃ clientEnd, goParseInt64 "7" = some clientEnd ∧ (8 : Int) = wrap64 (clientEnd + 1)) ∧
    wireEndParam (makeTile 1001 256 "u") = 1023 := by
  have h := boundary_translation
  refine ⟨h.1 "3" "7" 3 8 rfl, ?_⟩
  have h2 := (h.2 1001 256 "u" (by norm_num) (by norm_num) (by norm_num) (by norm_num)).2.2
  rw [h2 (by decide)]
  decide

theorem goParseInt64_empty : goParseInt64 "" = none := rfl

theorem parseQueryParams_ok_eq (startS endS : String) (si ei : Int)
    (hsi : goParseInt64 startS = some si) (hei : goParseInt64 endS = some ei)
    (h0s : 0 ≤ si) (h0e : 0 ≤ ei) (hle : si ≤ ei) :
    parseQueryParams startS endS = .ok (si, wrap64 (ei + 1)) := by
  have hne1 : startS ≠ "" := by
    intro hh
    rw [hh, goParseInt64_empty] at hsi
    exact Option.noConfusion hsi
  have hne2 : endS ≠ "" := by
    intro hh
    rw [hh, goParseInt64_empty] at hei
    exact Option.noConfusion hei
  unfold parseQueryParams
  rw [if_neg hne1, if_neg hne2, hsi]
  dsimp only
  rw [if_neg (by omega), hei]
  dsimp only
  rw [if_neg (by omega), if_neg (by omega)]

/-- C5 counterexample: the claim states that an accepted query returns
(start, end + 1), but the increment is an int64 operation. At
end = 2^63 − 1 (a valid non-negative int64 that parses), the returned
internal end wraps to −2^63 instead of the mathematical 2^63. -/
theorem parseQueryParams_overflow_counterexample :
    parseQueryParams "0" "9223372036854775807" = .ok (0, -9223372036854775808) ∧
    (-9223372036854775808 : Int) ≠ 9223372036854775807 + 1 := by
  exact ⟨rfl, by decide⟩

/-- C5 (amended): parseQueryParams errors exactly when start is absent,
end is absent, either parameter fails to parse as a decimal 64-bit
integer, either is negative, or end < start; in every other case it
returns (start, wrap64(end + 1)) — equal to (start, end + 1) except
when end = 2^63 − 1 — with no error, and the handler validation step
answers HTTP 400 with the parse error message exactly when parsing
fails. -/
theorem parseQueryParams_spec (startS endS : String) :
    ((parseQueryParams startS endS).isOk = true ↔
      (startS ≠ "" ∧ endS ≠ "" ∧ ∃ startInt endInt,
        goParseInt64 startS = some startInt ∧ goParseInt64 endS = some endInt ∧
        0 ≤ startInt ∧ 0 ≤ endInt ∧ startInt ≤ endInt)) ∧
    (∀ startInt endInt,
      goParseInt64 startS = some startInt → goParseInt64 endS = some endInt →
      0 ≤ startInt → 0 ≤ endInt → startInt ≤ endInt →
      parseQueryParams startS endS = .ok (startInt, wrap64 (endInt + 1))) ∧
    (∀ msg, parseQueryParams startS endS = .error msg →
      serveValidation startS endS = .error ⟨400, msg⟩) ∧
    (∀ p, parseQueryParams startS endS = .ok p →
      serveValidation startS endS = .ok p) := by
  refine ⟨⟨?_, ?_⟩, ?_, ?_, ?_⟩
  · intro hok
    unfold parseQueryParams at hok
    by_cases h1 : startS = ""
    · rw [if_pos h1] at hok
      simp only [Except.isOk, Except.toBool] at hok
      exact Bool.noConfusion hok
    rw [if_neg h1] at hok
    by_cases h2 : endS = ""
    · rw [if_pos h2] at hok
      simp only [Except.isOk, Except.toBool] at hok
      exact Bool.noConfusion hok
    rw [if_neg h2] at hok
    cases hps : goParseInt64 startS with
    | none =>
      rw [hps] at hok
      simp only [Except.isOk, Except.toBool] at hok
      exact Bool.noConfusion hok
    | some si =>
      rw [hps] at hok
      dsimp only at hok
      by_cases h3 : si < 0
      · rw [if_pos h3] at hok
        simp only [Except.isOk, Except.toBool] at hok
        exact Bool.noConfusion hok
      rw [if_neg h3] at hok
      cases hpe : goParseInt64 endS with
      | none =>
        rw [hpe] at hok
        simp only [Except.isOk, Except.toBool] at hok
        exact Bool.noConfusion hok
      | some ei =>
        rw [hpe] at hok
        dsimp only at hok
        by_cases h4 : ei < 0
        · rw [if_pos h4] at hok
          simp only [Except.isOk, Except.toBool] at hok
          exact Bool.noConfusion hok
        rw [if_neg h4] at hok
        by_cases h5 : ei < si
        · rw [if_pos h5] at hok
          simp only [Except.isOk, Except.toBool] at hok
          exact Bool.noConfusion hok
        exact ⟨h1, h2, si, ei, rfl, rfl, by omega, by omega, by omega⟩
  · rintro ⟨hne1, hne2, si, ei, hsi, hei, h0s, h0e, hle⟩
    rw [parseQueryParams_ok_eq startS endS si ei hsi hei h0s h0e hle]
    rfl
  · intro si ei hsi hei h0s h0e hle
    exact parseQueryParams_ok_eq startS endS si ei hsi hei h0s h0e hle
  · intro msg hmsg
    unfold serveValidation
    rw [hmsg]
  · intro p hp
    unfold serveValidation
    rw [hp]

/-- C5 witness: a well-formed query start=3, end=7 parses to the
half-open pair (3, 8). -/
theorem parseQueryParams_spec_witness :
    parseQueryParams "3" "7" = .ok (3, 8) := by
  have h := (parseQueryParams_spec "3" "7").2.1 3 7 rfl rfl (by norm_num) (by norm_num)
    (by norm_num)
  rw [h]
  rfl

/-- C8: if the CBOR encode step inside writeToS3 fails, writeToS3
returns success (nil error) without reaching the PutObject call, so
the caller observes a successful cache write even though nothing was
stored (main.go:216-219 discards the encoding error). -/
theorem writeToS3_encoding_error_discarded (t : tile) (e : List entry) (msg : String)
    (closeResult : Except String Unit) (putO : S3PutOutcome)
    (hlen : (e.length : Int) = t.size) (hend : t.end' = wrap64 (t.start + t.size)) :
    writeToS3 t e (.error msg) closeResult putO = (.ok (), false) := by
  unfold writeToS3
  rw [if_neg]
  omega

/-- C8 witness: a consistent full tile whose encode step fails yields a
nil error and no PUT. -/
theorem writeToS3_encoding_error_discarded_witness :
    writeToS3 ⟨0, 2, 2, "u"⟩ [⟨[], []⟩, ⟨[], []⟩] (.error "boom") (.ok ()) .ok =
      (.ok (), false) :=
  writeToS3_encoding_error_discarded ⟨0, 2, 2, "u"⟩ [⟨[], []⟩, ⟨[], []⟩] "boom"
    (.ok ()) .ok (by decide) (by decide)

/-- C9: passthroughHandler forwards a GET request to logURL ++ URL.Path;
the forwarded URL is computed without the query string, so requests
differing only in their query parameters forward identically. -/
theorem passthrough_drops_query (logURL : String) (r : HttpRequest)
    (h : r.method = "GET") :
    passthroughServe logURL r = .forward (logURL ++ r.path) ∧
    ∀ q, passthroughServe logURL { r with rawQuery := q } = passthroughServe logURL r := by
  unfold passthroughServe
  simp [h]

/-- C9 witness: a GET with query parameters forwards to the bare path. -/
theorem passthrough_drops_query_witness :
    passthroughServe "http://log" ⟨"GET", "/ct/v1/get-sth", "start=1&end=2"⟩ =
      .forward "http://log/ct/v1/get-sth" :=
  (passthrough_drops_query "http://log" ⟨"GET", "/ct/v1/get-sth", "start=1&end=2"⟩ rfl).1

/-- C4 counterexample: when the resolver's error wraps a
statusCodeError (here: S3 miss, upstream replied 400 with body
"oops"), ServeHTTP propagates the status code, but the response body
is the wrapped error message — which embeds the upstream body — not
the captured body bytes verbatim as the claim states. -/
theorem upstream_body_not_verbatim :
    (getAndCacheTileUncollapsed 2 ⟨0, 2, 2, "u"⟩ .notFound
        (.httpResp 400 "oops" (.error "x")) .ok).result =
      .error (.wrapped "error reading tile from backend: " (.statusCode 400 "oops")) ∧
    respondToTileError
        (.wrapped "error reading tile from backend: " (.statusCode 400 "oops")) =
      ⟨400, "error reading tile from backend: backend responded with status code 400 and body:\noops"⟩ ∧
    "error reading tile from backend: backend responded with status code 400 and body:\noops" ≠
      "oops" := by
  refine ⟨rfl, rfl, by decide⟩

/-- C4 (amended): whenever the resolver's error is or wraps a
statusCodeError carrying status s and body b, ServeHTTP replies with
status s and a body that is the error's message, which contains the
captured upstream body b verbatim as its suffix (prefixed by the
wrapping text and the statusCodeError header line); any resolver error
not wrapping a statusCodeError yields HTTP 500. -/
theorem upstream_error_propagation (err : GoError) :
    (∀ code body, errorsAsStatusCode err = some (code, body) →
      (respondToTileError err).status = code ∧
      ∃ p, (respondToTileError err).body =
        p ++ ("backend responded with status code " ++ toString code ++ " and body:\n" ++ body)) ∧
    (errorsAsStatusCode err = none → (respondToTileError err).status = 500) := by
  induction err with
  | noSuchKey =>
    exact ⟨fun code body h => Option.noConfusion h, fun _ => rfl⟩
  | pastTheEnd =>
    exact ⟨fun code body h => Option.noConfusion h, fun _ => rfl⟩
  | statusCode c b =>
    constructor
    · intro code body h
      injection h with h1
      obtain ⟨hc, hb⟩ := Prod.mk.injEq .. |>.mp h1
      subst hc
      subst hb
      constructor
      · unfold respondToTileError
        simp [errorsAsStatusCode]
      · exact ⟨"", by simp [respondToTileError, GoError.message]⟩
    · intro h
      exact absurd h (by simp [errorsAsStatusCode])
  | generic m =>
    exact ⟨fun code body h => Option.noConfusion h, fun _ => rfl⟩
  | wrapped pm inner ih =>
    constructor
    · intro code body h
      have hAs : errorsAsStatusCode (.wrapped pm inner) = errorsAsStatusCode inner := rfl
      rw [hAs] at h
      obtain ⟨hstat, p, hbody⟩ := ih.1 code body h
      constructor
      · show (respondToTileError (.wrapped pm inner)).status = code
        unfold respondToTileError at hstat ⊢
        simp only [errorsAsStatusCode] at hstat ⊢
        exact hstat
      · refine ⟨pm ++ p, ?_⟩
        show (GoError.wrapped pm inner).message = _
        have hb : (respondToTileError inner).body = inner.message := rfl
        rw [hb] at hbody
        show pm ++ inner.message = _
        rw [hbody]
        simp [String.append_assoc]
    · intro h
      have hAs : errorsAsStatusCode (.wrapped pm inner) = errorsAsStatusCode inner := rfl
      rw [hAs] at h
      have := ih.2 h
      unfold respondToTileError at this ⊢
      simp only [errorsAsStatusCode] at this ⊢
      exact this

/-- C4 witness: a doubly wrapped statusCodeError propagates its status
and embeds its body as a suffix of the reply. -/
theorem upstream_error_propagation_witness :
    (respondToTileError (.wrapped "error reading tile from backend: "
        (.statusCode 404 "not found"))).status = 404 ∧
    ∃ p, (respondToTileError (.wrapped "error reading tile from backend: "
        (.statusCode 404 "not found"))).body =
      p ++ ("backend responded with status code " ++ toString (404 : Int) ++ " and body:\n" ++
        "not found") :=
  (upstream_error_propagation
    (.wrapped "error reading tile from backend: " (.statusCode 404 "not found"))).1
    404 "not found" rfl

theorem resolver_notFound_eq (tileSize : Int) (t : tile) (bo : BackendOutcome)
    (putO : S3PutOutcome) :
    getAndCacheTileUncollapsed tileSize t .notFound bo putO =
      (match getTileFromBackend t bo with
      | .error err2 =>
        ⟨.error (.wrapped "error reading tile from backend: " err2), true, false⟩
      | .ok contents =>
        if isPartialTile tileSize contents then
          ⟨.ok (contents, .ctLog), true, false⟩
        else
          match (writeToS3 t contents (.ok ()) (.ok ()) putO).1 with
          | .error werr =>
            ⟨.error (.wrapped "error writing tile to S3: " werr), true,
              (writeToS3 t contents (.ok ()) (.ok ()) putO).2⟩
          | .ok _ =>
            ⟨.ok (contents, .ctLog), true,
              (writeToS3 t contents (.ok ()) (.ok ()) putO).2⟩ : ResolveResult) :=
  rfl

theorem resolver_ioError_eq (tileSize : Int) (t : tile) (m : String) (bo : BackendOutcome)
    (putO : S3PutOutcome) :
    getAndCacheTileUncollapsed tileSize t (.ioError m) bo putO =
      ⟨.error (.wrapped "error reading tile from s3: "
        (.wrapped "getting from bucket: " (.generic m))), false, false⟩ :=
  rfl

theorem resolver_badPayload_eq (tileSize : Int) (t : tile) (m : String) (bo : BackendOutcome)
    (putO : S3PutOutcome) :
    getAndCacheTileUncollapsed tileSize t (.badPayload m) bo putO =
      ⟨.error (.wrapped "error reading tile from s3: " (.generic m)), false, false⟩ :=
  rfl

theorem getFromS3_payload_bad (t : tile) (es : List entry)
    (hcheck : (es.length : Int) ≠ t.size ∨ t.end' ≠ wrap64 (t.start + t.size)) :
    getFromS3 t (.payload es) = .error (.generic "internal inconsistency") := by
  simp only [getFromS3]
  rw [if_pos hcheck]

theorem getFromS3_payload_ok (t : tile) (es : List entry)
    (hcheck : ¬((es.length : Int) ≠ t.size ∨ t.end' ≠ wrap64 (t.start + t.size))) :
    getFromS3 t (.payload es) = .ok es := by
  simp only [getFromS3]
  rw [if_neg hcheck]

theorem resolver_payload_bad_eq (tileSize : Int) (t : tile) (es : List entry)
    (bo : BackendOutcome) (putO : S3PutOutcome)
    (hcheck : (es.length : Int) ≠ t.size ∨ t.end' ≠ wrap64 (t.start + t.size)) :
    getAndCacheTileUncollapsed tileSize t (.payload es) bo putO =
      ⟨.error (.wrapped "error reading tile from s3: "
        (.generic "internal inconsistency")), false, false⟩ := by
  unfold getAndCacheTileUncollapsed
  rw [getFromS3_payload_bad t es hcheck]
  rfl

theorem resolver_payload_ok_eq (tileSize : Int) (t : tile) (es : List entry)
    (bo : BackendOutcome) (putO : S3PutOutcome)
    (hcheck : ¬((es.length : Int) ≠ t.size ∨ t.end' ≠ wrap64 (t.start + t.size))) :
    getAndCacheTileUncollapsed tileSize t (.payload es) bo putO =
      ⟨.ok (es, .s3), false, false⟩ := by
  unfold getAndCacheTileUncollapsed
  rw [getFromS3_payload_ok t es hcheck]

theorem resolver_notFound_contacts (tileSize : Int) (t : tile) (bo : BackendOutcome)
    (putO : S3PutOutcome) :
    (getAndCacheTileUncollapsed tileSize t .notFound bo putO).backendContacted = true := by
  rw [resolver_notFound_eq]
  cases hbe : getTileFromBackend t bo with
  | error err2 => rfl
  | ok contents =>
    dsimp only
    by_cases hp : isPartialTile tileSize contents
    · rw [if_pos hp]
    · rw [if_neg hp]
      cases hw : (writeToS3 t contents (.ok ()) (.ok ()) putO).1 with
      | error werr => rfl
      | ok u => rfl

/-- C2: the resolver contacts the upstream CT log exactly when the
object-store GET failed with the noSuchKey sentinel; any other
object-store GET error is returned (wrapped) without an upstream
fetch. -/
theorem readThrough_fallback_iff (tileSize : Int) (t : tile) (s3o : S3GetOutcome)
    (bo : BackendOutcome) (putO : S3PutOutcome) :
    ((getAndCacheTileUncollapsed tileSize t s3o bo putO).backendContacted = true ↔
      getFromS3 t s3o = .error .noSuchKey) ∧
    (∀ err, getFromS3 t s3o = .error err → errorsIsNoSuchKey err = false →
      getAndCacheTileUncollapsed tileSize t s3o bo putO =
        ⟨.error (.wrapped "error reading tile from s3: " err), false, false⟩) := by
  cases s3o with
  | notFound =>
    refine ⟨⟨fun _ => rfl, fun _ => resolver_notFound_contacts tileSize t bo putO⟩, ?_⟩
    intro err herr hfalse
    injection herr with h1
    rw [← h1] at hfalse
    exact Bool.noConfusion hfalse
  | ioError m =>
    refine ⟨⟨?_, ?_⟩, ?_⟩
    · intro hc
      rw [resolver_ioError_eq] at hc
      exact Bool.noConfusion hc
    · intro hc
      injection hc with h1
      exact GoError.noConfusion h1
    · intro err herr _
      injection herr with h1
      rw [← h1]
      exact resolver_ioError_eq tileSize t m bo putO
  | badPayload m =>
    refine ⟨⟨?_, ?_⟩, ?_⟩
    · intro hc
      rw [resolver_badPayload_eq] at hc
      exact Bool.noConfusion hc
    · intro hc
      injection hc with h1
      exact GoError.noConfusion h1
    · intro err herr _
      injection herr with h1
      rw [← h1]
      exact resolver_badPayload_eq tileSize t m bo putO
  | payload es =>
    by_cases hcheck : (es.length : Int) ≠ t.size ∨ t.end' ≠ wrap64 (t.start + t.size)
    · refine ⟨⟨?_, ?_⟩, ?_⟩
      · intro hc
        rw [resolver_payload_bad_eq tileSize t es bo putO hcheck] at hc
        exact Bool.noConfusion hc
      · intro hc
        rw [getFromS3_payload_bad t es hcheck] at hc
        injection hc with h1
        exact GoError.noConfusion h1
      · intro err herr _
        rw [getFromS3_payload_bad t es hcheck] at herr
        injection herr with h1
        rw [← h1]
        exact resolver_payload_bad_eq tileSize t es bo putO hcheck
    · refine ⟨⟨?_, ?_⟩, ?_⟩
      · intro hc
        rw [resolver_payload_ok_eq tileSize t es bo putO hcheck] at hc
        exact Bool.noConfusion hc
      · intro hc
        rw [getFromS3_payload_ok t es hcheck] at hc
        exact Except.noConfusion hc
      · intro err herr _
        rw [getFromS3_payload_ok t es hcheck] at herr
        exact Except.noConfusion herr

/-- C2 witness: an object-store transport error (not a miss) is
returned wrapped, with no upstream contact. -/
theorem readThrough_fallback_iff_witness :
    getAndCacheTileUncollapsed 2 ⟨0, 2, 2, "u"⟩ (.ioError "conn reset")
        (.httpResp 200 "b" (.ok [⟨[], []⟩])) .ok =
      ⟨.error (.wrapped "error reading tile from s3: "
        (.wrapped "getting from bucket: " (.generic "conn reset"))), false, false⟩ :=
  (readThrough_fallback_iff 2 ⟨0, 2, 2, "u"⟩ (.ioError "conn reset")
    (.httpResp 200 "b" (.ok [⟨[], []⟩])) .ok).2
    (.wrapped "getting from bucket: " (.generic "conn reset")) rfl rfl

/-- C3: in a resolution that reaches the upstream (object-store miss)
and succeeds, the S3 PutObject call happens exactly when the upstream
returned a full tile of tileSize entries; a partial tile is returned
to the caller with source CT log and nothing is written. -/
theorem partialTile_policy (tileSize : Int) (t : tile) (bo : BackendOutcome)
    (putO : S3PutOutcome) (es : List entry)
    (hts : t.size = tileSize)
    (hbe : getTileFromBackend t bo = .ok es)
    (hok : (getAndCacheTileUncollapsed tileSize t .notFound bo putO).result.isOk = true) :
    ((getAndCacheTileUncollapsed tileSize t .notFound bo putO).putAttempted = true ↔
      (es.length : Int) = tileSize) ∧
    ((es.length : Int) < tileSize →
      getAndCacheTileUncollapsed tileSize t .notFound bo putO =
        ⟨.ok (es, .ctLog), true, false⟩) := by
  rw [resolver_notFound_eq] at hok ⊢
  rw [hbe] at hok ⊢
  dsimp only at hok ⊢
  by_cases hp : isPartialTile tileSize es
  · have hlt : (es.length : Int) < tileSize := of_decide_eq_true hp
    rw [if_pos hp] at hok ⊢
    exact ⟨⟨fun hc => Bool.noConfusion hc, fun heq => absurd heq (by omega)⟩, fun _ => rfl⟩
  · have hge : ¬((es.length : Int) < tileSize) := of_decide_eq_false (Bool.not_eq_true _ |>.mp hp)
    rw [if_neg hp] at hok ⊢
    by_cases hcheck : (es.length : Int) ≠ t.size ∨ t.end' ≠ wrap64 (t.start + t.size)
    · have hw : writeToS3 t es (.ok ()) (.ok ()) putO =
          (.error (.generic "internal inconsistency"), false) := by
        unfold writeToS3
        rw [if_pos hcheck]
      rw [hw] at hok
      simp only [Except.isOk, Except.toBool] at hok
      exact Bool.noConfusion hok
    · have hlen : (es.length : Int) = tileSize := by
        push_neg at hcheck
        omega
      cases putO with
      | ok =>
        have hw : writeToS3 t es (.ok ()) (.ok ()) .ok = (.ok (), true) := by
          unfold writeToS3
          rw [if_neg hcheck]
        rw [hw] at hok ⊢
        exact ⟨⟨fun _ => hlen, fun _ => rfl⟩, fun hcon => absurd hcon (by omega)⟩
      | ioError m =>
        have hw : writeToS3 t es (.ok ()) (.ok ()) (.ioError m) =
            (.error (.generic ("putting in bucket: " ++ m)), true) := by
          unfold writeToS3
          rw [if_neg hcheck]
        rw [hw] at hok
        simp only [Except.isOk, Except.toBool] at hok
        exact Bool.noConfusion hok

/-- C3 witness: a full tile of two entries fetched from the upstream on
an S3 miss is written to S3 (PUT attempted) and returned with source
CT log. -/
theorem partialTile_policy_witness :
    (getAndCacheTileUncollapsed 2 ⟨0, 2, 2, "u"⟩ .notFound
        (.httpResp 200 "b" (.ok [⟨[], []⟩, ⟨[], []⟩])) .ok).putAttempted = true :=
  (partialTile_policy 2 ⟨0, 2, 2, "u"⟩ (.httpResp 200 "b" (.ok [⟨[], []⟩, ⟨[], []⟩])) .ok
    [⟨[], []⟩, ⟨[], []⟩] rfl rfl rfl).1.mpr (by norm_num)

theorem trimForDisplay_pastEnd (e : List entry) (start end' : Int) (t : tile)
    (hg1 : t.start ≤ start) (hg2 : start < t.end') (hg3 : start < end')
    (hg4 : (e.length : Int) ≤ t.size)
    (h0t : 0 ≤ t.start) (h63 : start < 2 ^ 63)
    (h : start - t.start ≥ (e.length : Int)) :
    trimForDisplay e start end' t = .error .pastTheEnd := by
  have hw1 : wrap64 (start - t.start) = start - t.start :=
    wrap64_eq_self (by omega) (by omega)
  unfold trimForDisplay
  rw [if_neg (by omega)]
  dsimp only
  rw [hw1, if_pos h]

theorem trimForDisplay_ok_char (e : List entry) (start end' : Int) (t : tile)
    (hg1 : t.start ≤ start) (hg2 : start < t.end') (hg3 : start < end')
    (hg4 : (e.length : Int) ≤ t.size)
    (h0t : 0 ≤ t.start) (h63 : start < 2 ^ 63) (he63 : end' < 2 ^ 63)
    (hs63 : t.size < 2 ^ 63)
    (h : start - t.start < (e.length : Int)) :
    trimForDisplay e start end' t =
      .ok ((e.drop (start - t.start).toNat).take
        (min (end' - start) ((e.length : Int) - (start - t.start))).toNat) := by
  have hw1 : wrap64 (start - t.start) = start - t.start :=
    wrap64_eq_self (by omega) (by omega)
  have hw2 : wrap64 (end' - start) = end' - start :=
    wrap64_eq_self (by omega) (by omega)
  have hsum : wrap64 (start - t.start + (end' - start)) = end' - t.start := by
    have he : start - t.start + (end' - start) = end' - t.start := by ring
    rw [he]
    exact wrap64_eq_self (by omega) (by omega)
  have hw3 : wrap64 ((e.length : Int) - (start - t.start)) =
      (e.length : Int) - (start - t.start) :=
    wrap64_eq_self (by omega) (by omega)
  unfold trimForDisplay
  rw [if_neg (by omega)]
  dsimp only
  rw [hw1, if_neg (by omega)]
  simp only [hw2, hsum, hw3]
  have harg : (if end' - t.start > (e.length : Int) then
        (e.length : Int) - (start - t.start)
      else end' - start).toNat =
      (min (end' - start) ((e.length : Int) - (start - t.start))).toNat := by
    by_cases hclamp : end' - t.start > (e.length : Int)
    · rw [if_pos hclamp]
      omega
    · rw [if_neg hclamp]
      omega
  rw [harg]

/-- C1 counterexample: the claim quantifies over every resolved tile
and accepted query, but tile.end is stored wrapped. For the accepted
query (start, end) = (2^63 − 2, 2^63 − 1) with tile size 2, the tile
is aligned at start and its end field wraps to −2^63, so the guard
start ≥ tile.end fires: although prefix = 0 < 1 = len(entries) (a
resolved partial tile of one entry), trimForDisplay reports an
internal inconsistency instead of returning min(end − start, len −
prefix) = 1 entry. -/
theorem trimForDisplay_claim_counterexample :
    ((9223372036854775806 : Int) - (makeTile 9223372036854775806 2 "x").start = 0) ∧
    (0 : Int) < 1 ∧
    trimForDisplay [⟨[], []⟩] 9223372036854775806 9223372036854775807
        (makeTile 9223372036854775806 2 "x") =
      .error (.generic "internal inconsistency") ∧
    handleTrim [⟨[], []⟩] 9223372036854775806 9223372036854775807
        (makeTile 9223372036854775806 2 "x") ≠
      .okReply [⟨[], []⟩] := by
  refine ⟨by decide, by decide, rfl, by decide⟩

/-- C1 (amended): for every resolved tile makeTile(start, size) with
tile.start + size below 2^63 (no int64 wrap in the end field; always
true for feasible log sizes) and accepted query start < end, with
prefix = start − tile.start: if prefix ≥ len(entries) the handler
replies HTTP 400 with body "requested range is past the end of the
log"; otherwise trimForDisplay returns exactly
min(end − start, len(entries) − prefix) entries, namely those at
offsets prefix through prefix + that count − 1 of the tile entry
list. -/
theorem trimForDisplay_correct (start end' size : Int) (u : String) (e : List entry)
    (hstart0 : 0 ≤ start) (hlt : start < end') (hend63 : end' < 2 ^ 63)
    (hspos : 0 < size)
    (hnw : start - start % size + size < 2 ^ 63)
    (hlen : (e.length : Int) ≤ size) :
    (start - (makeTile start size u).start ≥ (e.length : Int) →
      handleTrim e start end' (makeTile start size u) =
        .errorReply 400 "requested range is past the end of the log") ∧
    (start - (makeTile start size u).start < (e.length : Int) →
      ∃ res, trimForDisplay e start end' (makeTile start size u) = .ok res ∧
        (res.length : Int) =
          min (end' - start) ((e.length : Int) - (start - (makeTile start size u).start)) ∧
        ∀ i : Nat, i < res.length →
          res[i]? = e[(start - (makeTile start size u).start).toNat + i]?) := by
  have h63 : start < 2 ^ 63 := by omega
  have hb := emod_sub_bounds hstart0 hspos
  have hs := makeTile_start_eq start size u hstart0 hspos h63
  have he := makeTile_end_eq start size u hstart0 hspos h63 hnw
  have hsize : (makeTile start size u).size = size := rfl
  have hg1 : (makeTile start size u).start ≤ start := by
    rw [hs]
    omega
  have hg2 : start < (makeTile start size u).end' := by
    rw [he]
    omega
  have hg4 : (e.length : Int) ≤ (makeTile start size u).size := by
    rw [hsize]
    exact hlen
  have h0t : 0 ≤ (makeTile start size u).start := by
    rw [hs]
    omega
  have hs63 : (makeTile start size u).size < 2 ^ 63 := by
    rw [hsize]
    omega
  constructor
  · intro hge
    unfold handleTrim
    rw [trimForDisplay_pastEnd e start end' (makeTile start size u) hg1 hg2 hlt hg4 h0t h63 hge]
    rfl
  · intro hlt2
    refine ⟨_, trimForDisplay_ok_char e start end' (makeTile start size u) hg1 hg2 hlt hg4
      h0t h63 hend63 hs63 hlt2, ?_, ?_⟩
    · rw [List.length_take, List.length_drop]
      rw [hs] at hlt2 ⊢
      omega
    · intro i hi
      rw [List.length_take, List.length_drop] at hi
      have hiq : i < (min (end' - start)
          ((e.length : Int) - (start - (makeTile start size u).start))).toNat := by
        omega
      rw [List.getElem?_take_of_lt hiq, List.getElem?_drop]

/-- C1 witness: the amended trimming theorem applied to the partial
tile [3, 6) of size 3 holding two entries, for the accepted query
(3, 5): two entries at offsets 0 and 1 come back. -/
theorem trimForDisplay_correct_witness :
    ∃ res, trimForDisplay [⟨[], []⟩, ⟨[1], []⟩] 3 5 (makeTile 3 3 "u") = .ok res ∧
      (res.length : Int) =
        min ((5 : Int) - 3)
          ((([⟨[], []⟩, ⟨[1], []⟩] : List entry).length : Int) -
            (3 - (makeTile 3 3 "u").start)) ∧
      ∀ i : Nat, i < res.length →
        res[i]? = ([⟨[], []⟩, ⟨[1], []⟩] : List entry)[((3 : Int) -
          (makeTile 3 3 "u").start).toNat + i]? := by
  have h := trimForDisplay_correct 3 5 3 "u" [⟨[], []⟩, ⟨[1], []⟩] (by norm_num) (by norm_num)
    (by norm_num) (by norm_num) (by decide) (by decide)
  exact h.2 (by decide)

/-- C10: whenever trimForDisplay returns without error on a program
tile (tile.start ≥ 0, int64 fields), the slice bounds are in range —
0 ≤ prefixToRemove and prefixToRemove + requestedLen ≤ len(entries) —
and none of the intermediate int64 operations wraps: in particular
prefixToRemove + requestedLen = end − tile.start stays inside int64. -/
theorem trimForDisplay_inbounds (start end' : Int) (t : tile) (e : List entry)
    (hs63 : start < 2 ^ 63) (he63 : end' < 2 ^ 63)
    (h0t : 0 ≤ t.start) (hsize63 : t.size < 2 ^ 63)
    (res : List entry) (hres : trimForDisplay e start end' t = .ok res) :
    0 ≤ start - t.start ∧
    wrap64 (start - t.start) = start - t.start ∧
    wrap64 (end' - start) = end' - start ∧
    wrap64 (start - t.start + (end' - start)) = end' - t.start ∧
    start - t.start + (res.length : Int) ≤ (e.length : Int) ∧
    (res.length : Int) = min (end' - start) ((e.length : Int) - (start - t.start)) := by
  by_cases hguard : (start < t.start ∨ start ≥ t.end' ∨ end' ≤ start ∨ (e.length : Int) > t.size)
  · have hx : trimForDisplay e start end' t = .error (.generic "internal inconsistency") := by
      unfold trimForDisplay
      rw [if_pos hguard]
    rw [hx] at hres
    exact Except.noConfusion hres
  push_neg at hguard
  obtain ⟨hg1, hg2, hg3, hg4⟩ := hguard
  by_cases hpe : start - t.start ≥ (e.length : Int)
  · have hx : trimForDisplay e start end' t = .error .pastTheEnd :=
      trimForDisplay_pastEnd e start end' t hg1 hg2 hg3 hg4 h0t hs63 hpe
    rw [hx] at hres
    exact Except.noConfusion hres
  push_neg at hpe
  have hchar := trimForDisplay_ok_char e start end' t hg1 hg2 hg3 hg4 h0t hs63 he63 hsize63 hpe
  rw [hchar] at hres
  injection hres with hres1
  subst hres1
  refine ⟨by omega, wrap64_eq_self (by omega) (by omega),
    wrap64_eq_self (by omega) (by omega), ?_, ?_, ?_⟩
  · have he2 : start - t.start + (end' - start) = end' - t.start := by ring
    rw [he2]
    exact wrap64_eq_self (by omega) (by omega)
  · rw [List.length_take, List.length_drop]
    omega
  · rw [List.length_take, List.length_drop]
    omega

/-- C10 witness: the bounds theorem applied to the unit-test tile
[10, 20) of size 10 with three entries and query (11, 12). -/
theorem trimForDisplay_inbounds_witness :
    (([⟨[1], []⟩] : List entry).length : Int) =
      min ((12 : Int) - 11)
        ((([⟨[], []⟩, ⟨[1], []⟩, ⟨[2], []⟩] : List entry).length : Int) -
          (11 - (⟨10, 20, 10, "u"⟩ : tile).start)) := by
  have h := trimForDisplay_inbounds 11 12 ⟨10, 20, 10, "u"⟩
    [⟨[], []⟩, ⟨[1], []⟩, ⟨[2], []⟩] (by norm_num) (by norm_num) (by norm_num) (by norm_num)
    [⟨[1], []⟩] rfl
  exact h.2.2.2.2.2

end Ctile
